import Mathlib

/-!
# dnstrace: the command-line front end (`main.go`)

A shallow embedding of `main.go`: the positional-argument check, the
construction of the initial query, the two tracer callbacks
(`GotIntermediaryResponse`, `FollowingCNAME`) and the final report.

Conventions of the embedding.

* Standard output is a `String`; every `fmt.Print*` call appends its text.
  A call `fmt.Printf(col(format, c), args...)` appends the formatted text
  wrapped by `colorize`: the colour wrapper adds an escape sequence on either
  side of the format string and no formatting verb.
* A Go pointer that may be nil is an `Option`; a nil dereference or an index
  out of range stops the callback with a `Fault`.
* `time.Duration` is an `Int` (nanoseconds).
* What the external libraries compute (the miekg/dns type tables, `dns.Fqdn`,
  `Msg.Len`, the `String` methods, float formatting, the flag package's
  defaults listing) is taken as a parameter, the record `Lib`.
* The resolution engine (package `client`) is not part of `main.go`; a run of
  `RecursiveQuery` is the list of tracer events it raises and the triple it
  returns.
-/

namespace Dnstrace

/-! ## Constants -/

def cReset : Nat := 0
def cBold : Nat := 1
def cRed : Nat := 31
def cGreen : Nat := 32
def cYellow : Nat := 33
def cBlue : Nat := 34
def cMagenta : Nat := 35
def cCyan : Nat := 36
def cGray : Nat := 37
def cDarkGray : Nat := 90

/-- Limit retry of unresolved name to 10 times. -/
def maxRetry : Nat := 10

/-- Go's `time.Duration`: a signed number of nanoseconds. -/
abbrev Duration := Int

/-- Value of `time.Millisecond`. -/
def Millisecond : Duration := 1000000

/-- Value of `dns.TypeA`. -/
def TypeA : Nat := 1
/-- Value of `dns.TypeOPT`. -/
def TypeOPT : Nat := 41
/-- Value of `dns.ClassINET`. -/
def ClassINET : Nat := 1
/-- Value of `dns.DefaultMsgSize`. -/
def DefaultMsgSize : Nat := 4096
/-- The DNSSEC-OK bit of the OPT record's TTL field (`1 << 15`). -/
def DO_bit : Nat := 32768

/-! ## Data model -/

/-- Header of a resource record (`dns.RR_Header`). -/
structure RR_Header where
  Name : String
  Rrtype : Nat
  Class : Nat
  Ttl : Nat
  Rdlength : Nat
deriving DecidableEq, Repr

/-- Zero value of `dns.RR_Header`. -/
def RR_Header.zero : RR_Header := ⟨"", 0, 0, 0, 0⟩

/-- A resource record (`dns.RR`), by its concrete Go type: `*dns.NS`,
`*dns.OPT`, or any other record type (kept with its rdata text). -/
inductive RR where
  | NS (Hdr : RR_Header) (Ns : String)
  | OPT (Hdr : RR_Header)
  | Other (Hdr : RR_Header) (rdata : String)
deriving DecidableEq, Repr

/-- The method `rr.Header()`. -/
def RR.Header : RR → RR_Header
  | .NS h _ => h
  | .OPT h => h
  | .Other h _ => h

/-- The type assertion `rr.(*dns.NS)` succeeds. -/
def RR.isNS : RR → Bool
  | .NS _ _ => true
  | _ => false

/-- The method `(*dns.OPT).SetDo()` without argument: `rr.Hdr.Ttl |= _DO`. -/
def SetDo (h : RR_Header) : RR_Header := { h with Ttl := h.Ttl ||| DO_bit }

/-- The method `(*dns.OPT).SetUDPSize(size)`: `rr.Hdr.Class = size`. -/
def SetUDPSize (h : RR_Header) (size : Nat) : RR_Header := { h with Class := size }

/-- The method `(*dns.OPT).Do()`: `rr.Hdr.Ttl&_DO == _DO`. -/
def Do (h : RR_Header) : Bool := h.Ttl &&& DO_bit == DO_bit

/-- The method `(*dns.OPT).UDPSize()`: `rr.Hdr.Class`. -/
def UDPSize (h : RR_Header) : Nat := h.Class

/-- One entry of the question section (`dns.Question`). -/
structure Question where
  Name : String
  Qtype : Nat
  Qclass : Nat
deriving DecidableEq, Repr

/-- Message header (`dns.MsgHdr`). -/
structure MsgHdr where
  Id : Nat
  Response : Bool
  Opcode : Nat
  Authoritative : Bool
  Truncated : Bool
  RecursionDesired : Bool
  RecursionAvailable : Bool
  Zero : Bool
  AuthenticatedData : Bool
  CheckingDisabled : Bool
  Rcode : Nat
deriving DecidableEq, Repr

/-- A DNS message (`dns.Msg`). -/
structure Msg where
  Hdr : MsgHdr
  Compress : Bool
  Question : List Question
  Answer : List RR
  Ns : List RR
  Extra : List RR
deriving DecidableEq, Repr

/-- Zero value `&dns.Msg{}`. -/
def Msg.zero : Msg :=
  ⟨⟨0, false, 0, false, false, false, false, false, false, false, 0⟩, false, [], [], [], []⟩

/-- A Go `error` value, by whether its concrete type is `*net.OpError` (which
carries an inner `Err`, possibly nil), with the text its `Error()` returns. -/
inductive GoError where
  | OpError (text : String) (Err : Option GoError)
  | other (text : String)

/-- The text of `err.Error()`. -/
def GoError.text : GoError → String
  | .OpError t _ => t
  | .other t => t

/-- What the verb `%v` prints for an `error` interface value. -/
def fmtV : Option GoError → String
  | none => "<nil>"
  | some e => e.text

/-- A candidate nameserver (`client.Server`). -/
structure Server where
  Name : String
  HasGlue : Bool
  TTL : Nat
  Addrs : List String
  LookupRTT : Duration

/-- One server's answer to one query at one step (`client.Response`). -/
structure Response where
  Server : Server
  Addr : String
  Msg : Option Msg
  RTT : Duration
  Err : Option GoError

/-- Modelled from the spec: the engine's `ResponseType`, whose declaration is
in package `client`; a closed tag over Delegation, CNAME, Answer, Error. -/
inductive ResponseType where
  | Delegation
  | CNAME
  | Answer
  | Error
deriving DecidableEq, Repr

/-- Modelled from the spec: the engine's `Responses.Fastest()` of package
`client`; the Response with the smallest RTT among those with no error, the
first one on a tie, and nil when every Response has an error. -/
def Fastest : List Response → Option Response
  | [] => none
  | r :: rest =>
    match Fastest rest with
    | none => if r.Err.isNone then some r else none
    | some b => if r.Err.isNone ∧ r.RTT ≤ b.RTT then some r else some b

/-- Modelled from the spec: the engine's delegation cache of package
`client`; a mapping from zone-cut label to a generation counter and an
ordered sequence of nameservers. -/
structure DCache where
  entries : List (String × Nat × List Server)

/-- Modelled from the spec: the engine's `DCache.Get(label)` of package
`client`; the current generation and the cached nameserver set of a label, or
an empty result if the label is unseen. -/
def DCache.Get (c : DCache) (label : String) : Nat × List Server :=
  match c.entries.lookup label with
  | some e => e
  | none => (0, [])

/-- Modelled from the spec: the engine's client of package `client`, as far
as `main` configures it; the retry bound handed to `client.New`, the
per-query timeout `c.Client.Timeout`, and the delegation cache `c.DCache`. -/
structure Client where
  maxRetry : Nat
  Timeout : Duration
  DCache : DCache

/-- Modelled from the spec: the engine's `client.New(maxRetry)` of package
`client`; a client with the given retry bound, no timeout set yet and an
empty delegation cache. -/
def Client.New (n : Nat) : Client := ⟨n, 0, ⟨[]⟩⟩

/-- The command-line flags `-color`, `-nsonly` and `-noglueonly`. -/
structure Flags where
  color : Bool
  nsonly : Bool
  noglueonly : Bool
deriving DecidableEq, Repr

/-- What the external libraries compute. -/
structure Lib where
  /-- The table `dns.StringToType`. -/
  StringToType : String → Option Nat
  /-- The table `dns.TypeToString`; the empty string for a missing key. -/
  TypeToString : Nat → String
  /-- The function `dns.Fqdn`. -/
  Fqdn : String → String
  /-- The identifier drawn by `dns.Id()` in `SetQuestion`. -/
  Id : Nat
  /-- The method `(*dns.Msg).Len()`. -/
  Len : Msg → Nat
  /-- The method `dns.MsgHdr.String()`. -/
  hdrString : MsgHdr → String
  /-- The method `String()` of a resource record. -/
  rrString : RR → String
  /-- The text `%.2f` prints for `float64(d)/float64(time.Millisecond)`. -/
  fmtMillis : Duration → String
  /-- The method `time.Duration.String()`. -/
  durString : Duration → String
  /-- The text written by `flag.PrintDefaults()`. -/
  PrintDefaults : String

/-! ## Text helpers -/

/-- The function `colorize` of `main.go`, on the text `%v` prints for `s`. -/
def colorize (s : String) (color : Nat) (enabled : Bool) : String :=
  if !enabled then s
  else "\x1b[" ++ toString color ++ "m" ++ s ++ "\x1b[0m"

/-- Drops the prefix `p` from `s`, when `s` starts with it. -/
def dropPrefix? : List Char → List Char → Option (List Char)
  | [], s => some s
  | _ :: _, [] => none
  | p :: ps, c :: cs => if p = c then dropPrefix? ps cs else none

/-- Worker of `Replace`: scans `s` left to right, at most `fuel` steps. -/
def replaceLoop (old new : List Char) : Nat → List Char → List Char
  | 0, s => s
  | _ + 1, [] => []
  | fuel + 1, c :: cs =>
    match dropPrefix? old (c :: cs) with
    | some rest => new ++ replaceLoop old new fuel rest
    | none => c :: replaceLoop old new fuel cs

/-- The call `strings.Replace(s, old, new, -1)` for a non-empty `old`: every
non-overlapping occurrence of `old`, from the left, becomes `new`. -/
def Replace (s old new : String) : String :=
  ⟨replaceLoop old.data new.data s.data.length s.data⟩

/-- The call `strings.Join(elems, sep)`. -/
def Join (elems : List String) (sep : String) : String := sep.intercalate elems

/-! ## The positional arguments (`main`, lines 50-66) -/

/-- The loop over `flag.Args()`: an argument found in `dns.StringToType` sets
the query type; any other argument is the domain, and a second one stops the
program with the usage text (`none`). -/
def parseArgs (lib : Lib) : List String → String → Nat → Option (String × Nat)
  | [], qname, qtype => some (qname, qtype)
  | arg :: rest, qname, qtype =>
    match lib.StringToType arg with
    | some t => parseArgs lib rest qname t
    | none =>
      if qname ≠ "" then none
      else parseArgs lib rest (lib.Fqdn arg) qtype

/-- The text `flag.Usage` writes to the flag package's output. -/
def usageText (lib : Lib) : String :=
  "Usage: dnstrace [qtype] <domain>\n\n" ++ lib.PrintDefaults

/-! ## The initial query and the client (`main`, lines 72-86) -/

/-- The method `(*dns.Msg).SetQuestion(z, t)`: a fresh id, recursion desired,
and the single question `z t IN`. -/
def SetQuestion (lib : Lib) (m : Msg) (z : String) (t : Nat) : Msg :=
  { m with
    Hdr := { m.Hdr with Id := lib.Id, RecursionDesired := true }
    Question := [⟨z, t, ClassINET⟩] }

/-- The OPT record `o` after `o.SetDo()` and `o.SetUDPSize(dns.DefaultMsgSize)`. -/
def optRecord : RR :=
  .OPT (SetUDPSize (SetDo { RR_Header.zero with Name := ".", Rrtype := TypeOPT }) DefaultMsgSize)

/-- The message `m` handed to `RecursiveQuery`. -/
def buildQuery (lib : Lib) (qname : String) (qtype : Nat) : Msg :=
  let m := SetQuestion lib Msg.zero qname qtype
  { m with Extra := m.Extra ++ [optRecord] }

/-- The client `c`: `client.New(maxRetry)` with `c.Client.Timeout` set to
500 ms. -/
def buildClient : Client :=
  { Client.New maxRetry with Timeout := 500 * Millisecond }

/-! ## The tracer callbacks (`main`, lines 87-184) -/

/-- How a callback can stop abnormally. -/
inductive Fault where
  | nilDeref
  | indexOutOfRange
deriving DecidableEq, Repr

/-- Result of running a callback: the text written to standard output and the
runtime panic that stopped it, if any. -/
structure Run where
  out : String
  fault : Option Fault
deriving DecidableEq, Repr

/-- Lines 89-93: the variable `r`, the message of `rs.Fastest()`. -/
def fastestMsg (rs : List Response) : Option Msg :=
  match Fastest rs with
  | some fr => fr.Msg
  | none => none

/-- Lines 96-111: the step header. -/
def stepHeader (lib : Lib) (f : Flags) (i : Int) (q : Question) (r : Option Msg) : String :=
  (if i > 1 then (if !f.nsonly then "\n" else "") else "") ++
  (if !f.nsonly then
    toString i ++ " - query " ++ lib.TypeToString q.Qtype ++ " " ++ q.Name
   else "") ++
  (match r with
   | some r =>
     if !f.nsonly then
       ": " ++ Replace (Replace (lib.hdrString r.Hdr) ";; " "") "\n" ", "
     else ""
   | none => "") ++
  (if !f.nsonly then "\n" else "")

/-- Lines 113-116: the variable `ln`. -/
def msgLength (lib : Lib) (pr : Response) : Nat :=
  match pr.Msg with
  | some m => lib.Len m
  | none => 0

/-- Lines 118-125: the variable `lrtt`. -/
def lookupCost (lib : Lib) (f : Flags) (pr : Response) : String :=
  if pr.Server.HasGlue then "0ms (from glue)"
  else if pr.Server.LookupRTT > 0 then
    (if !f.nsonly then lib.fmtMillis pr.Server.LookupRTT ++ "ms"
     else "0ms (from cache)")
  else "0ms (from cache)"

/-- Lines 129-137: what is printed for `pr.Err`. -/
def errorPart (f : Flags) (pr : Response) : String :=
  match pr.Err with
  | none => ""
  | some err =>
    let err := match err with
      | .OpError _ inner => inner
      | .other t => some (.other t)
    if !f.nsonly then ": " ++ colorize (fmtV err) cRed f.color else ""

/-- Lines 112-141: one iteration of the loop over the ResponseSet. -/
def serverLine (lib : Lib) (f : Flags) (pr : Response) : String :=
  (if !f.nsonly then
    colorize ("  - " ++ toString (msgLength lib pr) ++ " bytes in " ++ lib.fmtMillis pr.RTT
      ++ "ms + " ++ lookupCost lib f pr ++ " lookup on " ++ pr.Server.Name
      ++ "(" ++ pr.Addr ++ ")") cDarkGray f.color
   else "") ++
  errorPart f pr ++
  (if !f.nsonly then "\n" else "")

/-- Lines 145-151: the variable `label`, by the loop over `r.Ns`. -/
def delegationLabel : List RR → String
  | [] => ""
  | .NS h _ :: _ => h.Name
  | _ :: rest => delegationLabel rest

/-- Lines 154-161: the variable `glue`. -/
def glueText (f : Flags) (s : Server) : String :=
  if s.HasGlue then
    (if !f.nsonly then colorize ("glue: " ++ Join s.Addrs ",") cDarkGray f.color else "")
  else colorize "no glue" cYellow f.color

/-- Lines 153-172: one iteration of the loop over the cached nameservers. -/
def nsLine (f : Flags) (label : String) (s : Server) : String :=
  if !f.nsonly then
    label ++ " " ++ toString s.TTL ++ " NS " ++ s.Name ++ " (" ++ glueText f s ++ ")\n"
  else if !s.HasGlue && f.noglueonly then s.Name ++ "\n"
  else if f.nsonly && !f.noglueonly then s.Name ++ "\n"
  else ""

/-- Lines 173-178: one iteration of the loop over `r.Answer`. -/
def answerLine (lib : Lib) (f : Flags) (rr : RR) : String :=
  if !f.nsonly then lib.rrString rr ++ "\n" else ""

/-- Lines 143-179: the switch on the response type; `r` is the message of the
fastest response, nil when there is none. -/
def stepBody (lib : Lib) (f : Flags) (dcache : DCache) (r : Option Msg) :
    ResponseType → Run
  | .Delegation =>
    match r with
    | none => ⟨"", some .nilDeref⟩
    | some r =>
      let label := delegationLabel r.Ns
      let ns := (dcache.Get label).2
      ⟨String.join (ns.map (nsLine f label)), none⟩
  | .CNAME =>
    match r with
    | none => ⟨"", some .nilDeref⟩
    | some r => ⟨String.join (r.Answer.map (answerLine lib f)), none⟩
  | _ => ⟨"", none⟩

/-- The callback `GotIntermediaryResponse`; `dcache` is the state of
`c.DCache` when the engine calls it. -/
def GotIntermediaryResponse (lib : Lib) (f : Flags) (dcache : DCache) (i : Int)
    (m : Option Msg) (rs : List Response) (rtype : ResponseType) : Run :=
  let r := fastestMsg rs
  match m with
  | none => ⟨"", some .nilDeref⟩
  | some m =>
    match m.Question with
    | [] => ⟨"", some .indexOutOfRange⟩
    | q :: _ =>
      let head := stepHeader lib f i q r ++ String.join (rs.map (serverLine lib f))
      let body := stepBody lib f dcache r rtype
      ⟨head ++ body.out, body.fault⟩

/-- The callback `FollowingCNAME`. -/
def FollowingCNAME (f : Flags) (domain target : String) : String :=
  colorize ("\n~ following CNAME " ++ domain ++ " -> " ++ target ++ "\n") cBlue f.color

/-! ## The final report (`main`, lines 185-199) -/

/-- How the process ends: the text written and the exit status. -/
structure Exit where
  out : String
  code : Nat
deriving DecidableEq, Repr

/-- Lines 186-199, on the triple `r, rtt, err` returned by `RecursiveQuery`.
A nil `r` with a nil `err` stops at `r.Answer` (status 2 of a Go panic). -/
def finish (lib : Lib) (f : Flags) (r : Option Msg) (rtt : Duration)
    (err : Option GoError) : Exit :=
  match err with
  | some e => ⟨colorize ("*** error: " ++ fmtV (some e) ++ "\n") cRed f.color, 1⟩
  | none =>
    let head :=
      if !f.nsonly then
        "\n" ++ colorize (";; Cold best path time: " ++ lib.durString rtt ++ "\n\n") cGray f.color
      else ""
    match r with
    | none => ⟨head, 2⟩
    | some r => ⟨head ++ String.join (r.Answer.map (answerLine lib f)), 0⟩

/-! ## The whole program -/

/-- One call of a tracer hook by the engine. -/
inductive TraceEvent where
  | step (dcache : DCache) (i : Int) (m : Option Msg) (rs : List Response)
      (rtype : ResponseType)
  | cname (domain target : String)

/-- One run of `RecursiveQuery`: the hooks it calls, in order, and the triple
it returns. -/
structure EngineRun where
  events : List TraceEvent
  r : Option Msg
  rtt : Duration
  err : Option GoError

/-- Runs the tracer hooks over the engine's calls, stopping at a panic. -/
def runTracer (lib : Lib) (f : Flags) : List TraceEvent → Run
  | [] => ⟨"", none⟩
  | e :: rest =>
    let x : Run :=
      match e with
      | .step dcache i m rs rtype => GotIntermediaryResponse lib f dcache i m rs rtype
      | .cname domain target => ⟨FollowingCNAME f domain target, none⟩
    match x.fault with
    | some _ => x
    | none =>
      let y := runTracer lib f rest
      ⟨x.out ++ y.out, y.fault⟩

/-- What one invocation of the program does: the text on standard output, the
usage text on the flag package's output, the exit status, and the client and
message of the call to `RecursiveQuery` if the call is made. -/
structure Process where
  stdout : String
  usage : String
  exit : Nat
  query : Option (Client × Msg)

/-- The function `main` after `flag.Parse()`, on the flags, the positional
arguments and the engine. -/
def main (lib : Lib) (f : Flags) (args : List String)
    (RecursiveQuery : Client → Msg → EngineRun) : Process :=
  if args.length < 1 ∨ args.length > 4 then ⟨"", usageText lib, 1, none⟩
  else
    match parseArgs lib args "" TypeA with
    | none => ⟨"", usageText lib, 1, none⟩
    | some (qname, qtype) =>
      let m := buildQuery lib qname qtype
      let c := buildClient
      let run := RecursiveQuery c m
      let t := runTracer lib f run.events
      match t.fault with
      | some _ => ⟨t.out, "", 2, some (c, m)⟩
      | none =>
        let e := finish lib f run.r run.rtt run.err
        ⟨t.out ++ e.out, "", e.code, some (c, m)⟩

/-! ## Sample inputs -/

/-- A concrete library for evaluating the program on sample inputs. The type
tables hold the miekg/dns entries of five common record types; the remaining
fields are simple stand-ins. -/
def sampleLib : Lib where
  StringToType := fun s =>
    if s = "A" then some 1 else if s = "NS" then some 2 else if s = "CNAME" then some 5
    else if s = "MX" then some 15 else if s = "AAAA" then some 28 else none
  TypeToString := fun t =>
    if t = 1 then "A" else if t = 2 then "NS" else if t = 5 then "CNAME"
    else if t = 15 then "MX" else if t = 28 then "AAAA" else ""
  Fqdn := fun s => if s.data.getLast? = some '.' then s else s ++ "."
  Id := 4242
  Len := fun m => 12 + 16 * (m.Question.length + m.Answer.length + m.Ns.length + m.Extra.length)
  hdrString := fun h => ";; id: " ++ toString h.Id ++ "\n;; flags:;"
  rrString := fun rr => rr.Header.Name ++ "\t" ++ toString rr.Header.Ttl
  fmtMillis := fun d => toString (d / 1000000) ++ ".00"
  durString := fun d => toString (d / 1000000) ++ "ms"
  PrintDefaults := "  -color\n  -noglueonly\n  -nsonly\n"

/-- The query `A example.com.` as `main` builds it. -/
def sampleQuery : Msg := buildQuery sampleLib "example.com." TypeA

/-- A nameserver of `com.` that came with glue. -/
def glueServer : Server := ⟨"a.gtld-servers.net.", true, 172800, ["192.5.6.30"], 0⟩

/-- A nameserver of `com.` that came without glue. -/
def bareServer : Server := ⟨"b.gtld-servers.net.", false, 172800, ["192.33.14.30"], 7000000⟩

/-- A root server. -/
def rootServer : Server := ⟨"a.root-servers.net.", false, 518400, ["198.41.0.4"], 0⟩

/-- A referral to `com.`: no answer, one SOA-like record and one NS record in
the authority section. -/
def referral : Msg :=
  { Msg.zero with
    Question := [⟨"example.com.", 1, 1⟩]
    Ns := [.Other ⟨"net.", 6, 1, 900, 0⟩ "soa", .NS ⟨"com.", 2, 1, 172800, 0⟩ "a.gtld-servers.net."] }

/-- The root server's successful response carrying the referral. -/
def referralResponse : Response := ⟨rootServer, "198.41.0.4", some referral, 12000000, none⟩

/-- A response that timed out. -/
def timeoutResponse : Response :=
  ⟨rootServer, "198.41.0.4", none, 500000000,
    some (.OpError "read udp 198.41.0.4:53: i/o timeout" (some (.other "i/o timeout")))⟩

/-- A nameserver of `com.` that came with two glue addresses. -/
def dualServer : Server :=
  ⟨"c.gtld-servers.net.", true, 172800, ["192.26.92.30", "2001:503:83eb::30"], 0⟩

/-- A delegation cache holding the nameserver set of `com.`. -/
def sampleCache : DCache := ⟨[("com.", 1, [glueServer, bareServer])]⟩

/-- An engine run that follows one CNAME and then answers. -/
def cnameEngine : Client → Msg → EngineRun :=
  fun _ _ => ⟨[.cname "a.example." "b.example."], some Msg.zero, 0, none⟩

/-- An engine run that fails at once. -/
def failingEngine : Client → Msg → EngineRun :=
  fun _ _ => ⟨[], none, 0, some (.other "no response")⟩

/-! ## The label named by the spec -/

/-- The owner name of the first record of type NS in a section, or the empty
string when the section holds none (the zone label in the spec's words). -/
def firstNSOwner (section_ : List RR) : String :=
  match section_.find? RR.isNS with
  | some rr => rr.Header.Name
  | none => ""

/-! ## Lemmas on text -/

theorem millis_ne_glue (x : String) : x ++ "ms" ≠ "0ms (from glue)" := by
  intro h
  have h2 := congrArg String.data h
  have h3 := congrArg List.getLast? h2
  simp at h3

theorem toString_cYellow : toString cYellow = "33" := by decide

theorem toString_cDarkGray : toString cDarkGray = "90" := by decide

theorem noglue_ne_glue (x : String) (b : Bool) :
    colorize ("glue: " ++ x) cDarkGray b ≠ colorize "no glue" cYellow b := by
  intro h
  cases b
  · have h2 := congrArg String.data h
    simp [colorize] at h2
  · have h2 := congrArg String.data h
    simp [colorize, toString_cYellow, toString_cDarkGray] at h2

theorem join_cons (a : String) (l : List String) :
    String.join (a :: l) = a ++ String.join l := by
  apply String.ext
  simp [String.data_join]

theorem join_map_empty {α : Type} (g : α → String) (l : List α) (h : ∀ x, g x = "") :
    String.join (l.map g) = "" := by
  induction l with
  | nil => rfl
  | cons a l ih => rw [List.map_cons, join_cons, ih, h a]; rfl

/-! ## Lemmas on the callback -/

theorem callback_eq (lib : Lib) (f : Flags) (dcache : DCache) (i : Int) (m : Msg)
    (q : Question) (qs : List Question) (rs : List Response) (rtype : ResponseType)
    (hq : m.Question = q :: qs) :
    GotIntermediaryResponse lib f dcache i (some m) rs rtype
      = ⟨stepHeader lib f i q (fastestMsg rs) ++ String.join (rs.map (serverLine lib f))
          ++ (stepBody lib f dcache (fastestMsg rs) rtype).out,
         (stepBody lib f dcache (fastestMsg rs) rtype).fault⟩ := by
  simp only [GotIntermediaryResponse, hq]

theorem errorPart_quiet (f : Flags) (pr : Response) (hns : f.nsonly = true) :
    errorPart f pr = "" := by
  unfold errorPart
  cases pr.Err <;> simp [hns]

theorem serverLine_quiet (lib : Lib) (f : Flags) (pr : Response) (hns : f.nsonly = true) :
    serverLine lib f pr = "" := by
  simp [serverLine, hns, errorPart_quiet f pr hns]

theorem stepHeader_quiet (lib : Lib) (f : Flags) (i : Int) (q : Question) (r : Option Msg)
    (hns : f.nsonly = true) : stepHeader lib f i q r = "" := by
  cases r <;> simp [stepHeader, hns]

theorem fastestMsg_eq (rs : List Response) (fr : Response) (r : Msg)
    (hfr : Fastest rs = some fr) (hr : fr.Msg = some r) : fastestMsg rs = some r := by
  simp [fastestMsg, hfr, hr]

theorem fastestMsg_none (rs : List Response) (h : Fastest rs = none) :
    fastestMsg rs = none := by
  simp [fastestMsg, h]

theorem delegationLabel_eq_firstNSOwner (l : List RR) :
    delegationLabel l = firstNSOwner l := by
  induction l with
  | nil => rfl
  | cons rr rest ih =>
    cases rr with
    | NS h n => simp [delegationLabel, firstNSOwner, RR.isNS, RR.Header]
    | OPT h =>
      rw [delegationLabel, ih]
      · simp [firstNSOwner, RR.isNS]
      · intro h1 n hc; cases hc
    | Other h t =>
      rw [delegationLabel, ih]
      · simp [firstNSOwner, RR.isNS]
      · intro h1 n hc; cases hc

theorem nsLines_quiet_noglue (f : Flags) (label : String) (hns : f.nsonly = true)
    (hng : f.noglueonly = true) (ns : List Server) :
    String.join (ns.map (nsLine f label))
      = String.join ((ns.filter (fun s => !s.HasGlue)).map (fun s => s.Name ++ "\n")) := by
  induction ns with
  | nil => rfl
  | cons s ns ih =>
    cases hg : s.HasGlue with
    | true =>
      have h1 : nsLine f label s = "" := by simp [nsLine, hns, hng, hg]
      rw [List.map_cons, join_cons, ih, h1, List.filter_cons_of_neg (by simp [hg])]
      simp
    | false =>
      have h1 : nsLine f label s = s.Name ++ "\n" := by simp [nsLine, hns, hng, hg]
      rw [List.map_cons, join_cons, ih, h1, List.filter_cons_of_pos (by simp [hg]),
        List.map_cons, join_cons]

/-! ## Lemmas on the argument loop -/

theorem getLast?_cons_getD (a t : Nat) (l : List Nat) :
    ((a :: l).getLast?).getD t = (l.getLast?).getD a := by
  cases l with
  | nil => rfl
  | cons b l =>
    rw [List.getLast?_cons_cons, List.getLast?_eq_getLast (b :: l) (List.cons_ne_nil b l)]
    rfl

theorem parseArgs_only_types (lib : Lib) :
    ∀ (rest : List String) (qname : String) (t : Nat),
      rest.filter (fun a => (lib.StringToType a).isNone) = [] →
      parseArgs lib rest qname t
        = some (qname, ((rest.filterMap lib.StringToType).getLast?).getD t) := by
  intro rest
  induction rest with
  | nil => intro qname t _; rfl
  | cons arg rest ih =>
    intro qname t h
    cases hs : lib.StringToType arg with
    | none => simp [List.filter, hs] at h
    | some u =>
      have h2 : rest.filter (fun a => (lib.StringToType a).isNone) = [] := by
        simpa [List.filter, hs] using h
      rw [parseArgs, hs]
      simp only []
      rw [ih qname u h2, List.filterMap_cons, hs, getLast?_cons_getD]

theorem parseArgs_one_domain (lib : Lib) :
    ∀ (rest : List String) (t : Nat) (d : String),
      rest.filter (fun a => (lib.StringToType a).isNone) = [d] →
      parseArgs lib rest "" t
        = some (lib.Fqdn d, ((rest.filterMap lib.StringToType).getLast?).getD t) := by
  intro rest
  induction rest with
  | nil => intro t d h; simp at h
  | cons arg rest ih =>
    intro t d h
    cases hs : lib.StringToType arg with
    | none =>
      have h2 : arg = d ∧ rest.filter (fun a => (lib.StringToType a).isNone) = [] := by
        simpa [List.filter, hs] using h
      rw [parseArgs, hs]
      simp only [ne_eq, not_true_eq_false, if_false]
      rw [parseArgs_only_types lib rest _ t h2.2, List.filterMap_cons, hs, h2.1]
    | some u =>
      have h2 : rest.filter (fun a => (lib.StringToType a).isNone) = [d] := by
        simpa [List.filter, hs] using h
      rw [parseArgs, hs]
      simp only []
      rw [ih u d h2, List.filterMap_cons, hs, getLast?_cons_getD]

theorem parseArgs_second_domain (lib : Lib) :
    ∀ (rest : List String) (qname : String) (t : Nat),
      qname ≠ "" → (∃ a ∈ rest, lib.StringToType a = none) →
      parseArgs lib rest qname t = none := by
  intro rest
  induction rest with
  | nil => intro qname t _ h; simp at h
  | cons arg rest ih =>
    intro qname t hq h
    cases hs : lib.StringToType arg with
    | none => rw [parseArgs, hs]; simp [hq]
    | some u =>
      rw [parseArgs, hs]
      simp only []
      apply ih qname u hq
      obtain ⟨a, ha, hna⟩ := h
      rcases List.mem_cons.mp ha with rfl | ha
      · rw [hs] at hna; cases hna
      · exact ⟨a, ha, hna⟩

/-! ## The usage check -/

/-- Fewer than one or more than four positional arguments: the usage text is
written, the status is 1 and `RecursiveQuery` is not called. -/
theorem main_usage_on_bad_count (lib : Lib) (f : Flags) (args : List String)
    (eng : Client → Msg → EngineRun) (h : args.length < 1 ∨ args.length > 4) :
    (main lib f args eng).usage = usageText lib ∧ (main lib f args eng).exit = 1 ∧
    (main lib f args eng).stdout = "" ∧ (main lib f args eng).query = none := by
  unfold main
  rw [if_pos h]
  exact ⟨rfl, rfl, rfl, rfl⟩

/-- Two arguments that are not record-type names: the usage text is written,
the status is 1 and `RecursiveQuery` is not called. -/
theorem main_usage_on_two_domains (lib : Lib) (hfq : ∀ s, lib.Fqdn s ≠ "") (f : Flags)
    (pre mid post : List String) (d e : String) (eng : Client → Msg → EngineRun)
    (hd : lib.StringToType d = none) (he : lib.StringToType e = none)
    (hpre : ∀ a ∈ pre, lib.StringToType a ≠ none) :
    (main lib f (pre ++ d :: mid ++ e :: post) eng).usage = usageText lib ∧
    (main lib f (pre ++ d :: mid ++ e :: post) eng).exit = 1 ∧
    (main lib f (pre ++ d :: mid ++ e :: post) eng).query = none := by
  have key : ∀ (pre : List String) (t : Nat), (∀ a ∈ pre, lib.StringToType a ≠ none) →
      parseArgs lib (pre ++ d :: mid ++ e :: post) "" t = none := by
    intro pre
    induction pre with
    | nil =>
      intro t _
      show parseArgs lib (d :: (mid ++ e :: post)) "" t = none
      rw [parseArgs, hd]
      simp only [ne_eq, not_true_eq_false, if_false]
      exact parseArgs_second_domain lib _ _ t (hfq d) ⟨e, by simp, he⟩
    | cons a pre ih =>
      intro t h
      cases hs : lib.StringToType a with
      | none => exact absurd hs (h a (by simp))
      | some u =>
        show parseArgs lib (a :: (pre ++ d :: mid ++ e :: post)) "" t = none
        rw [parseArgs, hs]
        exact ih u (fun b hb => h b (by simp [hb]))
  unfold main
  split
  · exact ⟨rfl, rfl, rfl⟩
  · rw [key pre TypeA hpre]
    exact ⟨rfl, rfl, rfl⟩

/-- Arguments accepted by the loop: `RecursiveQuery` is called once, with the
client and the message built from the parsed name and type, and no usage text
is written. -/
theorem main_of_parse (lib : Lib) (f : Flags) (args : List String)
    (eng : Client → Msg → EngineRun) (qname : String) (qtype : Nat)
    (hl : ¬ (args.length < 1 ∨ args.length > 4))
    (hp : parseArgs lib args "" TypeA = some (qname, qtype)) :
    (main lib f args eng).query = some (buildClient, buildQuery lib qname qtype) ∧
    (main lib f args eng).usage = "" := by
  unfold main
  rw [if_neg hl, hp]
  simp only []
  split <;> exact ⟨rfl, rfl⟩

/-- Arguments accepted by the loop and no panic in the tracer hooks: standard
output is the hooks' text followed by the final report, whose status is the
exit status. -/
theorem main_of_run (lib : Lib) (f : Flags) (args : List String)
    (eng : Client → Msg → EngineRun) (qname : String) (qtype : Nat)
    (hl : ¬ (args.length < 1 ∨ args.length > 4))
    (hp : parseArgs lib args "" TypeA = some (qname, qtype))
    (ht : (runTracer lib f (eng buildClient (buildQuery lib qname qtype)).events).fault
      = none) :
    (main lib f args eng).stdout
      = (runTracer lib f (eng buildClient (buildQuery lib qname qtype)).events).out
        ++ (finish lib f (eng buildClient (buildQuery lib qname qtype)).r
              (eng buildClient (buildQuery lib qname qtype)).rtt
              (eng buildClient (buildQuery lib qname qtype)).err).out ∧
    (main lib f args eng).exit
      = (finish lib f (eng buildClient (buildQuery lib qname qtype)).r
              (eng buildClient (buildQuery lib qname qtype)).rtt
              (eng buildClient (buildQuery lib qname qtype)).err).code := by
  unfold main
  rw [if_neg hl, hp]
  simp only []
  rw [ht]
  exact ⟨rfl, rfl⟩

/-! ## Claims -/

/-- C1, evaluated at the invocation `dnstrace A`: every argument is a
record-type name, so no domain is given; `main` writes no usage text and
calls `RecursiveQuery` with a question whose name is the empty string. -/
theorem main_without_domain_queries (f : Flags) (eng : Client → Msg → EngineRun) :
    (main sampleLib f ["A"] eng).usage = "" ∧
    (main sampleLib f ["A"] eng).query.map (fun q => q.2.Question)
      = some [⟨"", 1, 1⟩] := by
  have hp : parseArgs sampleLib ["A"] "" TypeA = some ("", 1) := by decide
  have h := main_of_parse sampleLib f ["A"] eng "" 1 (by decide) hp
  rw [h.1, h.2]
  exact ⟨rfl, rfl⟩

/-- C3: for an invocation with one to four arguments of which exactly one,
`d`, is not a record-type name, the message handed to `RecursiveQuery` has the
single question `Fqdn d`, of the type named by the last record-type argument
(A when there is none) and class IN; its additional section is one OPT record
with owner `.`, the DO bit set and UDP size 4096; the client has retry bound
10 and timeout 500 ms. -/
theorem main_query_shape (lib : Lib) (f : Flags) (args : List String) (d : String)
    (eng : Client → Msg → EngineRun)
    (hlen : 1 ≤ args.length ∧ args.length ≤ 4)
    (hdom : args.filter (fun a => (lib.StringToType a).isNone) = [d]) :
    ∃ (c : Client) (m : Msg) (h : RR_Header),
      (main lib f args eng).query = some (c, m) ∧
      m.Question
        = [⟨lib.Fqdn d, ((args.filterMap lib.StringToType).getLast?).getD TypeA, ClassINET⟩] ∧
      m.Extra = [RR.OPT h] ∧ h.Name = "." ∧ h.Rrtype = TypeOPT ∧ Do h = true ∧
      UDPSize h = 4096 ∧
      c.maxRetry = 10 ∧ c.Timeout = 500 * Millisecond := by
  have hp := parseArgs_one_domain lib args TypeA d hdom
  have hl : ¬ (args.length < 1 ∨ args.length > 4) := by omega
  refine ⟨buildClient,
    buildQuery lib (lib.Fqdn d) (((args.filterMap lib.StringToType).getLast?).getD TypeA),
    SetUDPSize (SetDo { RR_Header.zero with Name := ".", Rrtype := TypeOPT }) DefaultMsgSize,
    ?_, rfl, rfl, rfl, rfl, by decide, rfl, rfl, rfl⟩
  exact (main_of_parse lib f args eng _ _ hl hp).1

theorem main_query_shape_witness :
    (1 ≤ ["MX", "example.com"].length ∧ ["MX", "example.com"].length ≤ 4) ∧
    ["MX", "example.com"].filter (fun a => (sampleLib.StringToType a).isNone)
      = ["example.com"] ∧
    ∃ (c : Client) (m : Msg) (h : RR_Header),
      (main sampleLib ⟨true, false, false⟩ ["MX", "example.com"] cnameEngine).query
        = some (c, m) ∧
      m.Question
        = [⟨sampleLib.Fqdn "example.com",
            ((["MX", "example.com"].filterMap sampleLib.StringToType).getLast?).getD TypeA,
            ClassINET⟩] ∧
      m.Extra = [RR.OPT h] ∧ h.Name = "." ∧ h.Rrtype = TypeOPT ∧ Do h = true ∧
      UDPSize h = 4096 ∧
      c.maxRetry = 10 ∧ c.Timeout = 500 * Millisecond :=
  ⟨by decide, by decide,
    main_query_shape sampleLib ⟨true, false, false⟩ ["MX", "example.com"] "example.com"
      cnameEngine (by decide) (by decide)⟩

/-- C5: with `-nsonly` unset, the lookup cost shown on a server line is
`0ms (from glue)` exactly when the server's `HasGlue` is true, whatever its
`LookupRTT`; without glue it is the `LookupRTT` in milliseconds with two
decimals when `LookupRTT > 0` and `0ms (from cache)` when `LookupRTT` is 0. -/
theorem lookup_cost_shown (lib : Lib) (f : Flags) (pr : Response)
    (hns : f.nsonly = false) :
    serverLine lib f pr
      = colorize ("  - " ++ toString (msgLength lib pr) ++ " bytes in "
          ++ lib.fmtMillis pr.RTT ++ "ms + " ++ lookupCost lib f pr ++ " lookup on "
          ++ pr.Server.Name ++ "(" ++ pr.Addr ++ ")") cDarkGray f.color
        ++ errorPart f pr ++ "\n" ∧
    (lookupCost lib f pr = "0ms (from glue)" ↔ pr.Server.HasGlue = true) ∧
    (pr.Server.HasGlue = false → pr.Server.LookupRTT > 0 →
      lookupCost lib f pr = lib.fmtMillis pr.Server.LookupRTT ++ "ms") ∧
    (pr.Server.HasGlue = false → pr.Server.LookupRTT = 0 →
      lookupCost lib f pr = "0ms (from cache)") := by
  refine ⟨by simp [serverLine, hns], ?_, ?_, ?_⟩
  · constructor
    · intro h
      cases hg : pr.Server.HasGlue with
      | true => rfl
      | false =>
        exfalso
        revert h
        simp only [lookupCost, hg, hns]
        by_cases hl : pr.Server.LookupRTT > 0
        · simp only [hl]
          exact millis_ne_glue _
        · simp [hl]
    · intro h; simp [lookupCost, h]
  · intro hg hl; simp [lookupCost, hg, hl, hns]
  · intro hg hl; simp [lookupCost, hg, hl]

theorem lookup_cost_shown_witness :
    (⟨true, false, false⟩ : Flags).nsonly = false ∧
    (serverLine sampleLib ⟨true, false, false⟩ ⟨bareServer, "192.33.14.30", none, 9000000, none⟩
      = colorize ("  - "
          ++ toString (msgLength sampleLib ⟨bareServer, "192.33.14.30", none, 9000000, none⟩)
          ++ " bytes in " ++ sampleLib.fmtMillis 9000000 ++ "ms + "
          ++ lookupCost sampleLib ⟨true, false, false⟩
              ⟨bareServer, "192.33.14.30", none, 9000000, none⟩
          ++ " lookup on " ++ bareServer.Name ++ "(" ++ "192.33.14.30" ++ ")") cDarkGray true
        ++ errorPart ⟨true, false, false⟩ ⟨bareServer, "192.33.14.30", none, 9000000, none⟩
        ++ "\n" ∧
     (lookupCost sampleLib ⟨true, false, false⟩
          ⟨bareServer, "192.33.14.30", none, 9000000, none⟩ = "0ms (from glue)"
        ↔ bareServer.HasGlue = true) ∧
     (bareServer.HasGlue = false → bareServer.LookupRTT > 0 →
       lookupCost sampleLib ⟨true, false, false⟩
          ⟨bareServer, "192.33.14.30", none, 9000000, none⟩
        = sampleLib.fmtMillis bareServer.LookupRTT ++ "ms") ∧
     (bareServer.HasGlue = false → bareServer.LookupRTT = 0 →
       lookupCost sampleLib ⟨true, false, false⟩
          ⟨bareServer, "192.33.14.30", none, 9000000, none⟩
        = "0ms (from cache)")) :=
  ⟨rfl, lookup_cost_shown sampleLib ⟨true, false, false⟩
    ⟨bareServer, "192.33.14.30", none, 9000000, none⟩ rfl⟩

/-- C6, evaluated with `-nsonly` set and colours off: after a CNAME hop the
program prints the CNAME-following notice, and after a failed trace it prints
the `*** error` line; neither is a nameserver hostname. -/
theorem nsonly_prints_notice_and_error :
    (main sampleLib ⟨false, true, false⟩ ["example.com"] cnameEngine).stdout
      = "\n~ following CNAME a.example. -> b.example.\n" ∧
    (main sampleLib ⟨false, true, false⟩ ["example.com"] failingEngine).stdout
      = "*** error: no response\n" ∧
    FollowingCNAME ⟨false, true, false⟩ "a.example." "b.example."
      = "\n~ following CNAME a.example. -> b.example.\n" := by
  decide

/-- With `-noglueonly` and `-nsonly` both set, a Delegation step prints
exactly the glue-less nameservers of the cached set, in cached order, each as
a line holding its hostname alone, and nothing else. With `-nsonly` unset the
value of `-noglueonly` is never read: the step prints the same text as
without the flag. -/
theorem noglueonly_with_nsonly (lib : Lib) (f : Flags) (dcache : DCache) (i : Int) (m : Msg)
    (q : Question) (qs : List Question) (rs : List Response) (fr : Response) (r : Msg)
    (hq : m.Question = q :: qs) (hfr : Fastest rs = some fr) (hr : fr.Msg = some r)
    (hng : f.noglueonly = true) :
    (f.nsonly = true →
      GotIntermediaryResponse lib f dcache i (some m) rs .Delegation
        = ⟨String.join (((dcache.Get (delegationLabel r.Ns)).2.filter
              (fun s => !s.HasGlue)).map (fun s => s.Name ++ "\n")), none⟩) ∧
    (f.nsonly = false →
      GotIntermediaryResponse lib f dcache i (some m) rs .Delegation
        = GotIntermediaryResponse lib { f with noglueonly := false } dcache i (some m) rs
            .Delegation) := by
  have hm := fastestMsg_eq rs fr r hfr hr
  constructor
  · intro hns
    rw [callback_eq lib f dcache i m q qs rs .Delegation hq, hm,
      stepHeader_quiet lib f i q _ hns,
      join_map_empty (serverLine lib f) rs (fun pr => serverLine_quiet lib f pr hns)]
    simp only [stepBody]
    rw [nsLines_quiet_noglue f _ hns hng]
    simp
  · intro hns
    obtain ⟨c, n, g⟩ := f
    simp only at hns hng
    subst hns
    subst hng
    rfl

/-- C7, evaluated at `dnstrace -noglueonly -color=false example.com` on the
Delegation step to `com.`: with `-noglueonly` set and `-nsonly` unset the
callback prints the line of `a.gtld-servers.net.`, a nameserver whose
`HasGlue` is true, next to that of the glue-less `b.gtld-servers.net.`. -/
theorem noglueonly_prints_glue_server :
    (⟨false, false, true⟩ : Flags).noglueonly = true ∧ glueServer.HasGlue = true ∧
    (sampleCache.Get "com.").2.map (fun s => s.Name)
      = ["a.gtld-servers.net.", "b.gtld-servers.net."] ∧
    (GotIntermediaryResponse sampleLib ⟨false, false, true⟩ sampleCache 2 (some sampleQuery)
        [referralResponse] .Delegation)
      = ⟨stepHeader sampleLib ⟨false, false, true⟩ 2 ⟨"example.com.", 1, 1⟩ (some referral)
          ++ serverLine sampleLib ⟨false, false, true⟩ referralResponse
          ++ ("com. 172800 NS a.gtld-servers.net. (glue: 192.5.6.30)\n"
            ++ "com. 172800 NS b.gtld-servers.net. (no glue)\n"), none⟩ := by
  refine ⟨rfl, rfl, by decide, ?_⟩
  rw [callback_eq sampleLib _ sampleCache 2 sampleQuery ⟨"example.com.", 1, 1⟩ []
    [referralResponse] .Delegation rfl]
  have hm : fastestMsg [referralResponse] = some referral := rfl
  have hb : stepBody sampleLib ⟨false, false, true⟩ sampleCache (some referral) .Delegation
      = ⟨"com. 172800 NS a.gtld-servers.net. (glue: 192.5.6.30)\n"
          ++ "com. 172800 NS b.gtld-servers.net. (no glue)\n", none⟩ := by
    decide
  rw [hm, hb]
  simp [join_cons, show String.join ([] : List String) = "" from rfl]

theorem intercalate_go_append (p acc sep : String) (l : List String) :
    String.intercalate.go (p ++ acc) sep l = p ++ String.intercalate.go acc sep l := by
  induction l generalizing acc with
  | nil => rfl
  | cons a l ih =>
    simp only [String.intercalate.go]
    rw [← ih (acc ++ sep ++ a)]
    simp only [String.append_assoc]

theorem Join_nil (sep : String) : Join [] sep = "" := rfl

theorem Join_single (a sep : String) : Join [a] sep = a := rfl

theorem Join_cons_cons (a b sep : String) (l : List String) :
    Join (a :: b :: l) sep = a ++ sep ++ Join (b :: l) sep := by
  show String.intercalate.go (a ++ sep ++ b) sep l = a ++ sep ++ String.intercalate.go b sep l
  exact intercalate_go_append (a ++ sep) b sep l

/-- C8: on a Delegation step whose fastest response carries the message `r`,
the label the callback uses is the owner name of the first NS record of
`r.Ns` (the empty string without one), the nameservers listed are those the
cache returns for that label, and with `-nsonly` unset the callback prints,
after the header and the server lines, one `<label> <ttl> NS <name> (<glue>)`
line per cached nameserver in cached order, where `<glue>` is `no glue`
exactly when `HasGlue` is false and otherwise `glue: ` followed by the
addresses joined by commas: nothing for no address, the address itself for
one, and `a,` followed by the joined rest for more. The text is wrapped in
the escape sequences of yellow (33) and dark gray (90) when colours are on
and printed as is when they are off. -/
theorem delegation_listing (lib : Lib) (f : Flags) (dcache : DCache) (i : Int) (m : Msg)
    (q : Question) (qs : List Question) (rs : List Response) (fr : Response) (r : Msg)
    (hq : m.Question = q :: qs) (hfr : Fastest rs = some fr) (hr : fr.Msg = some r) :
    delegationLabel r.Ns = firstNSOwner r.Ns ∧
    stepBody lib f dcache (fastestMsg rs) .Delegation
      = ⟨String.join ((dcache.Get (firstNSOwner r.Ns)).2.map
          (nsLine f (firstNSOwner r.Ns))), none⟩ ∧
    (f.nsonly = false →
      GotIntermediaryResponse lib f dcache i (some m) rs .Delegation
        = ⟨stepHeader lib f i q (some r) ++ String.join (rs.map (serverLine lib f))
            ++ String.join ((dcache.Get (firstNSOwner r.Ns)).2.map (fun s =>
                firstNSOwner r.Ns ++ " " ++ toString s.TTL ++ " NS " ++ s.Name
                  ++ " (" ++ glueText f s ++ ")\n")), none⟩ ∧
      ∀ s : Server,
        (glueText f s = colorize "no glue" cYellow f.color ↔ s.HasGlue = false) ∧
        (s.HasGlue = true →
          glueText f s = colorize ("glue: " ++ Join s.Addrs ",") cDarkGray f.color)) ∧
    (Join [] "," = "" ∧ (∀ a : String, Join [a] "," = a) ∧
      ∀ (a b : String) (l : List String),
        Join (a :: b :: l) "," = a ++ "," ++ Join (b :: l) ",") ∧
    (∀ (t : String) (c : Nat), colorize t c false = t) ∧
    (∀ t : String, colorize t cYellow true = "\x1b[33m" ++ t ++ "\x1b[0m") ∧
    (∀ t : String, colorize t cDarkGray true = "\x1b[90m" ++ t ++ "\x1b[0m") := by
  have hm := fastestMsg_eq rs fr r hfr hr
  have hb : stepBody lib f dcache (fastestMsg rs) .Delegation
      = ⟨String.join ((dcache.Get (firstNSOwner r.Ns)).2.map
          (nsLine f (firstNSOwner r.Ns))), none⟩ := by
    rw [hm]
    simp only [stepBody, delegationLabel_eq_firstNSOwner]
  refine ⟨delegationLabel_eq_firstNSOwner r.Ns, hb, ?_,
    ⟨Join_nil ",", fun a => Join_single a ",", fun a b l => Join_cons_cons a b "," l⟩,
    fun t c => by simp [colorize],
    fun t => by
      simp only [colorize, toString_cYellow]
      apply String.ext
      simp,
    fun t => by
      simp only [colorize, toString_cDarkGray]
      apply String.ext
      simp⟩
  intro hns
  constructor
  · rw [callback_eq lib f dcache i m q qs rs .Delegation hq, hb, hm]
    have hl : nsLine f (firstNSOwner r.Ns) = fun s =>
        firstNSOwner r.Ns ++ " " ++ toString s.TTL ++ " NS " ++ s.Name
          ++ " (" ++ glueText f s ++ ")\n" := by
      funext s
      simp [nsLine, hns]
    rw [hl]
  · intro s
    constructor
    · constructor
      · intro h
        cases hg : s.HasGlue with
        | false => rfl
        | true =>
          exfalso
          revert h
          simp only [glueText, hg, hns]
          exact noglue_ne_glue _ _
      · intro hg
        simp [glueText, hg]
    · intro hg
      simp [glueText, hg, hns]

theorem delegation_listing_witness :
    (sampleQuery.Question = ⟨"example.com.", 1, 1⟩ :: [] ∧
     Fastest [timeoutResponse, referralResponse] = some referralResponse ∧
     referralResponse.Msg = some referral) ∧
    delegationLabel referral.Ns = "com." ∧
    GotIntermediaryResponse sampleLib ⟨false, false, false⟩ sampleCache 2 (some sampleQuery)
        [timeoutResponse, referralResponse] .Delegation
      = ⟨stepHeader sampleLib ⟨false, false, false⟩ 2 ⟨"example.com.", 1, 1⟩ (some referral)
          ++ String.join ([timeoutResponse, referralResponse].map
              (serverLine sampleLib ⟨false, false, false⟩))
          ++ String.join ((sampleCache.Get (firstNSOwner referral.Ns)).2.map (fun s =>
              firstNSOwner referral.Ns ++ " " ++ toString s.TTL ++ " NS " ++ s.Name
                ++ " (" ++ glueText ⟨false, false, false⟩ s ++ ")\n")), none⟩ ∧
    glueText ⟨false, false, false⟩ dualServer = "glue: 192.26.92.30,2001:503:83eb::30" ∧
    nsLine ⟨false, false, false⟩ "com." dualServer
      = "com. 172800 NS c.gtld-servers.net. (glue: 192.26.92.30,2001:503:83eb::30)\n" ∧
    nsLine ⟨true, false, false⟩ "com." bareServer
      = "com. 172800 NS b.gtld-servers.net. (\x1b[33mno glue\x1b[0m)\n" :=
  ⟨⟨rfl, rfl, rfl⟩,
    (delegation_listing sampleLib ⟨false, false, false⟩ sampleCache 2 sampleQuery
      ⟨"example.com.", 1, 1⟩ [] [timeoutResponse, referralResponse] referralResponse
      referral rfl rfl rfl).1,
    ((delegation_listing sampleLib ⟨false, false, false⟩ sampleCache 2 sampleQuery
      ⟨"example.com.", 1, 1⟩ [] [timeoutResponse, referralResponse] referralResponse
      referral rfl rfl rfl).2.2.1 rfl).1,
    by decide, by decide, by decide⟩

theorem Fastest_sound :
    ∀ (rs : List Response) (fr : Response),
      Fastest rs = some fr → fr ∈ rs ∧ fr.Err = none := by
  intro rs
  induction rs with
  | nil => intro fr h; cases h
  | cons r rest ih =>
    intro fr h
    rw [Fastest] at h
    cases hf : Fastest rest with
    | none =>
      rw [hf] at h
      simp only at h
      by_cases he : r.Err.isNone = true
      · rw [if_pos he] at h
        cases h
        exact ⟨List.mem_cons_self _ _, Option.isNone_iff_eq_none.mp he⟩
      · rw [if_neg he] at h
        cases h
    | some b =>
      rw [hf] at h
      simp only at h
      by_cases hc : r.Err.isNone = true ∧ r.RTT ≤ b.RTT
      · rw [if_pos hc] at h
        cases h
        exact ⟨List.mem_cons_self _ _, Option.isNone_iff_eq_none.mp hc.1⟩
      · rw [if_neg hc] at h
        cases h
        exact ⟨List.mem_cons_of_mem _ (ih _ hf).1, (ih _ hf).2⟩

/-- The callback on a step whose fastest response, on a Delegation or CNAME
step, carries a message. -/
theorem callback_total_of_message (lib : Lib) (f : Flags) (dcache : DCache) (i : Int)
    (m : Msg) (q : Question) (qs : List Question) (rs : List Response)
    (rtype : ResponseType) (hq : m.Question = q :: qs)
    (hr : rtype = .Delegation ∨ rtype = .CNAME →
      ∃ fr r, Fastest rs = some fr ∧ fr.Msg = some r) :
    (GotIntermediaryResponse lib f dcache i (some m) rs rtype).fault = none ∧
    (Fastest rs = none →
      GotIntermediaryResponse lib f dcache i (some m) rs rtype
        = ⟨stepHeader lib f i q none ++ String.join (rs.map (serverLine lib f)), none⟩ ∧
      (f.nsonly = false →
        stepHeader lib f i q none
          = (if i > 1 then "\n" else "") ++ toString i ++ " - query "
              ++ lib.TypeToString q.Qtype ++ " " ++ q.Name ++ "\n")) := by
  rw [callback_eq lib f dcache i m q qs rs rtype hq]
  constructor
  · cases rtype with
    | Delegation =>
      obtain ⟨fr, r, hfr, hmsg⟩ := hr (Or.inl rfl)
      rw [fastestMsg_eq rs fr r hfr hmsg]
      rfl
    | CNAME =>
      obtain ⟨fr, r, hfr, hmsg⟩ := hr (Or.inr rfl)
      rw [fastestMsg_eq rs fr r hfr hmsg]
      rfl
    | Answer => rfl
    | Error => rfl
  · intro hnone
    rw [fastestMsg_none rs hnone]
    constructor
    · cases rtype with
      | Delegation =>
        obtain ⟨fr, r, hfr, _⟩ := hr (Or.inl rfl)
        rw [hnone] at hfr
        cases hfr
      | CNAME =>
        obtain ⟨fr, r, hfr, _⟩ := hr (Or.inr rfl)
        rw [hnone] at hfr
        cases hfr
      | Answer => simp [stepBody]
      | Error => simp [stepBody]
    · intro hns
      by_cases hi : i > 1 <;> simp [stepHeader, hns, hi, String.append_assoc]

/-- C9: the step callback is total under the engine's contract. For every
call whose query message has at least one question, whose ResponseSet obeys
the data model (a Response without error carries a message) and in which
`Fastest()` is non-nil whenever the response type is Delegation or CNAME, the
callback completes without a nil dereference or an index out of range. When
every address errored (`Fastest()` is nil, so the step is Error or Answer),
it prints the step header without a response-header summary and the server
lines, and nothing from the absent message. -/
theorem callback_total (lib : Lib) (f : Flags) (dcache : DCache) (i : Int) (m : Msg)
    (q : Question) (qs : List Question) (rs : List Response) (rtype : ResponseType)
    (hq : m.Question = q :: qs)
    (hinv : ∀ pr ∈ rs, pr.Err = none → pr.Msg ≠ none)
    (hr : rtype = .Delegation ∨ rtype = .CNAME → Fastest rs ≠ none) :
    (GotIntermediaryResponse lib f dcache i (some m) rs rtype).fault = none ∧
    (Fastest rs = none →
      GotIntermediaryResponse lib f dcache i (some m) rs rtype
        = ⟨stepHeader lib f i q none ++ String.join (rs.map (serverLine lib f)), none⟩ ∧
      (f.nsonly = false →
        stepHeader lib f i q none
          = (if i > 1 then "\n" else "") ++ toString i ++ " - query "
              ++ lib.TypeToString q.Qtype ++ " " ++ q.Name ++ "\n")) := by
  apply callback_total_of_message lib f dcache i m q qs rs rtype hq
  intro ht
  cases hf : Fastest rs with
  | none => exact absurd hf (hr ht)
  | some fr =>
    obtain ⟨hmem, herr⟩ := Fastest_sound rs fr hf
    cases hmsg : fr.Msg with
    | none => exact absurd hmsg (hinv fr hmem herr)
    | some r => exact ⟨fr, r, rfl, hmsg⟩

theorem callback_total_witness :
    (sampleQuery.Question = ⟨"example.com.", 1, 1⟩ :: [] ∧
     (∀ pr ∈ [timeoutResponse, referralResponse], pr.Err = none → pr.Msg ≠ none) ∧
     Fastest [timeoutResponse, referralResponse] ≠ none ∧
     (∀ pr ∈ [timeoutResponse], pr.Err = none → pr.Msg ≠ none) ∧
     Fastest [timeoutResponse] = none) ∧
    (GotIntermediaryResponse sampleLib ⟨true, false, false⟩ sampleCache 1 (some sampleQuery)
        [timeoutResponse, referralResponse] .Delegation).fault = none ∧
    GotIntermediaryResponse sampleLib ⟨true, false, false⟩ sampleCache 1 (some sampleQuery)
        [timeoutResponse] .Error
      = ⟨stepHeader sampleLib ⟨true, false, false⟩ 1 ⟨"example.com.", 1, 1⟩ none
          ++ String.join ([timeoutResponse].map (serverLine sampleLib ⟨true, false, false⟩)),
         none⟩ :=
  have h2 : ∀ pr ∈ [timeoutResponse, referralResponse], pr.Err = none → pr.Msg ≠ none := by
    intro pr hpr he
    rcases List.mem_cons.mp hpr with rfl | hpr
    · cases he
    · rcases List.mem_cons.mp hpr with rfl | hpr
      · intro hc; cases hc
      · cases hpr
  have h1 : ∀ pr ∈ [timeoutResponse], pr.Err = none → pr.Msg ≠ none := by
    intro pr hpr he
    rcases List.mem_cons.mp hpr with rfl | hpr
    · cases he
    · cases hpr
  have hf : Fastest [timeoutResponse, referralResponse] ≠ none := by
    intro hc; cases hc
  ⟨⟨rfl, h2, hf, h1, rfl⟩,
    (callback_total sampleLib ⟨true, false, false⟩ sampleCache 1 sampleQuery
      ⟨"example.com.", 1, 1⟩ [] [timeoutResponse, referralResponse] .Delegation rfl
      h2 (fun _ => hf)).1,
    ((callback_total sampleLib ⟨true, false, false⟩ sampleCache 1 sampleQuery
      ⟨"example.com.", 1, 1⟩ [] [timeoutResponse] .Error rfl h1
      (fun h => by rcases h with h | h <;> cases h)).2 rfl).1⟩

end Dnstrace
